import Mathlib

/-!
# Verification of the borehole-cone mesh generator (`cones.ipynb`)

Shallow embedding of the notebook's `Point` and `Cone` classes.

* Python floats are modelled as exact rationals (`ℚ`) for the validation
  layer and as real numbers (`ℝ`) for the trigonometric geometry layer.
* Python runtime values inspected by `isinstance` checks are modelled by
  the inductive type `PyVal`; Python's `bool` is a subclass of `int`, so
  `isinstance(True, int)` holds and `True` reads as the number `1`.
* Raising `ValueError` is modelled by `Except String`; the `print`ed
  clamping notices are collected in a returned list of strings.
* The dataclass `__post_init__` validators become the smart constructors
  `mkPoint` and `mkCone`; the mutation `self.dip = math.radians(self.dip)`
  becomes the derived accessor `ConeData.dip` applied to the stored
  degree value (`math.radians x = x * π / 180`).
-/

/-- Coordinates of a validated `Point` (the dataclass's `x`, `y`, `z`),
read as numbers (a Python bool reads as `1`/`0`). -/
structure PointData where
  x : ℚ
  y : ℚ
  z : ℚ
deriving DecidableEq

/-- A Python runtime value, as far as the notebook's validation code
inspects it: an int, a float, a bool (subclass of int), a `Point`
instance, or anything else (`vnone`). -/
inductive PyVal where
  | vint : ℤ → PyVal
  | vfloat : ℚ → PyVal
  | vbool : Bool → PyVal
  | vpoint : PointData → PyVal
  | vnone : PyVal
deriving DecidableEq

/-- `isinstance(v, int)`. Python's `bool` is a subclass of `int`. -/
def PyVal.isinstanceInt : PyVal → Bool
  | .vint _ => true
  | .vbool _ => true
  | _ => false

/-- `isinstance(v, float)`. -/
def PyVal.isinstanceFloat : PyVal → Bool
  | .vfloat _ => true
  | _ => false

/-- `isinstance(v, Point)`. -/
def PyVal.isinstancePoint : PyVal → Bool
  | .vpoint _ => true
  | _ => false

/-- The numeric value of an int/float/bool (`True` = 1, `False` = 0);
arbitrary (0) on values the guarded code never reads numbers from. -/
def PyVal.numValue : PyVal → ℚ
  | .vint n => (n : ℚ)
  | .vfloat q => q
  | .vbool b => if b then 1 else 0
  | _ => 0

/-- The integer value of an int/bool; arbitrary (0) otherwise. -/
def PyVal.intValue : PyVal → ℤ
  | .vint n => n
  | .vbool b => if b then 1 else 0
  | _ => 0

/-- The `PointData` held by a `vpoint`; arbitrary on other values. -/
def PyVal.pointValue : PyVal → PointData
  | .vpoint p => p
  | _ => ⟨0, 0, 0⟩

/-- The `isinstance(i, float) or isinstance(i, int)` test applied to
each coordinate by `Point.__post_init__`. -/
def PyVal.isNumber (v : PyVal) : Bool := v.isinstanceFloat || v.isinstanceInt

/-- `Point.__post_init__`: each of `x`, `y`, `z` must satisfy
`isinstance(i, float) or isinstance(i, int)`, else `ValueError`. -/
def mkPoint (x y z : PyVal) : Except String PointData :=
  if (x.isinstanceFloat || x.isinstanceInt) &&
      (y.isinstanceFloat || y.isinstanceInt) &&
      (z.isinstanceFloat || z.isinstanceInt) then
    .ok ⟨x.numValue, y.numValue, z.numValue⟩
  else
    .error "x, y, z must be numbers (int, float)"

/-- A validated `Cone` dataclass instance, as it is after
`__post_init__` ran: `sides` and `rings` hold the (possibly clamped)
values, `dipDeg` holds the dip in degrees as passed in (the radian
value the original stores in `dip` is the derived `ConeData.dip`). -/
structure ConeData where
  point : PointData
  length : ℚ
  sides : ℕ
  rings : ℕ
  dipDeg : ℚ
deriving DecidableEq

/-- `Cone.SIDES_MIN`. -/
def ConeData.SIDES_MIN : ℤ := 3

/-- `Cone.RINGS_MIN`. -/
def ConeData.RINGS_MIN : ℤ := 1

/-- `Cone.DIP_MIN`. -/
def ConeData.DIP_MIN : ℚ := 0

/-- `Cone.DIP_MAX`. -/
def ConeData.DIP_MAX : ℚ := 90

/-- `Cone.__post_init__`: validation in source order — `point` must be a
`Point` instance, `length` must satisfy `length > 0`, `sides` and
`rings` must be `isinstance(·, int)`, values below the minima are
clamped with a printed notice, and `dip` outside the open interval
(0, 90) is rejected.  Returns the constructed record together with the
list of printed notices. -/
def mkCone (point : PyVal) (length : ℚ) (sides rings : PyVal) (dip : ℚ) :
    Except String (ConeData × List String) :=
  if ¬ point.isinstancePoint then
    .error "point must be an instance of Point"
  else if ¬ (0 < length) then
    .error "length must be a positive float"
  else if ¬ (sides.isinstanceInt ∧ rings.isinstanceInt) then
    .error "sides and rings must be an integers"
  else
    let s0 := sides.intValue
    let r0 := rings.intValue
    let s1 := if s0 < ConeData.SIDES_MIN then ConeData.SIDES_MIN else s0
    let noticeS := if s0 < ConeData.SIDES_MIN then ["Number of sides set to 3"] else []
    let r1 := if r0 < ConeData.RINGS_MIN then ConeData.RINGS_MIN else r0
    let noticeR := if r0 < ConeData.RINGS_MIN then ["Number of rings set to 1"] else []
    if dip ≤ ConeData.DIP_MIN ∨ dip ≥ ConeData.DIP_MAX then
      .error "dip must be larger than (0 and smaller than 90]"
    else
      .ok (⟨point.pointValue, length, s1.toNat, r1.toNat, dip⟩, noticeS ++ noticeR)

/-- The stored `dip` after `self.dip = math.radians(self.dip)`:
`math.radians x = x * π / 180`. -/
noncomputable def ConeData.dip (c : ConeData) : ℝ := (c.dipDeg : ℝ) * Real.pi / 180

/-- `radius = i * self.length * math.cos(self.dip) / self.rings`. -/
noncomputable def ConeData.radius (c : ConeData) (i : ℕ) : ℝ :=
  (i : ℝ) * (c.length : ℝ) * Real.cos c.dip / (c.rings : ℝ)

/-- `height = -math.sqrt(self.length**2 - (i*self.length*math.cos(self.dip)/self.rings)**2)`. -/
noncomputable def ConeData.height (c : ConeData) (i : ℕ) : ℝ :=
  -Real.sqrt ((c.length : ℝ) ^ 2 -
    ((i : ℝ) * (c.length : ℝ) * Real.cos c.dip / (c.rings : ℝ)) ^ 2)

/-- `angle = j * 2 * math.pi / self.sides`. -/
noncomputable def ConeData.angle (c : ConeData) (j : ℕ) : ℝ :=
  (j : ℝ) * 2 * Real.pi / (c.sides : ℝ)

/-- `Cone.points_polar`: for each ring `i` in `range(rings + 1)` and side
`j` in `range(sides)`, append `(i, radius, angle, height)` except when
`i == 0 and j > 0`; finally append the surface point `(-1, 0, 0, 0)`. -/
noncomputable def ConeData.pointsPolar (c : ConeData) : List (ℤ × ℝ × ℝ × ℝ) :=
  ((List.range (c.rings + 1)).flatMap (fun i =>
    (List.range c.sides).filterMap (fun j =>
      if i = 0 ∧ 0 < j then none
      else some ((i : ℤ), c.radius i, c.angle j, c.height i)))) ++ [(-1, 0, 0, 0)]

/-- `Cone.points_cartesian`: per-element conversion
`(ring, x + r*cos a, y + r*sin a, z + h)` of `points_polar`. -/
noncomputable def ConeData.pointsCartesian (c : ConeData) : List (ℤ × ℝ × ℝ × ℝ) :=
  c.pointsPolar.map (fun p =>
    (p.1, (c.point.x : ℝ) + p.2.1 * Real.cos p.2.2.1,
      (c.point.y : ℝ) + p.2.1 * Real.sin p.2.2.1,
      (c.point.z : ℝ) + p.2.2.2))

/-- `Cone._shift`: `n = n % len(seq); return seq[n:] + seq[:n]`
(the notebook only ever calls it with the nonnegative `n = 1`). -/
def shift {α : Type} (seq : List α) (n : ℕ) : List α :=
  List.drop (n % seq.length) seq ++ List.take (n % seq.length) seq

/-- `Cone.indices`: enumerate the Cartesian points, keeping the ring tag
and the 1-based position. -/
noncomputable def ConeData.indices (c : ConeData) : List (ℤ × ℕ) :=
  c.pointsCartesian.enum.map (fun q => (q.2.1, q.1 + 1))

/-- One iteration (`i`) of the loop body of `Cone.faces`, abstracted
over the indexed point list `pts_idx` and the ring count: filter the
two adjacent rings; at `i == 0` emit the tip-fan triangles, at `i > 0`
emit the two triangle families of the quadrilateral strip, and — still
inside the `i > 0` branch — the apex fan when `i == rings - 1`. -/
def faceStep (ptsIdx : List (ℤ × ℕ)) (rings : ℕ) (i : ℕ) : List (ℕ × ℕ × ℕ) :=
  let ringCurrent := ptsIdx.filter (fun pt => pt.1 = (i : ℤ))
  let ringNext := ptsIdx.filter (fun pt => pt.1 = (i : ℤ) + 1)
  if i = 0 then
    let idx1 := ringCurrent.headI.2
    let idx2 := ringNext.map (fun pt => pt.2)
    let idx3 := shift idx2 1
    (idx2.zip idx3).map (fun p => (idx1, p.1, p.2))
  else
    let idx1 := ringCurrent.map (fun pt => pt.2)
    let idx2 := shift idx1 1
    let idx3 := ringNext.map (fun pt => pt.2)
    let idx4 := shift idx3 1
    (idx1.zip (idx2.zip idx3)).map (fun p => (p.1, p.2.1, p.2.2)) ++
    (idx2.zip (idx3.zip idx4)).map (fun p => (p.1, p.2.1, p.2.2)) ++
    (if i = rings - 1 then
      (idx3.zip idx4).map (fun p => (ptsIdx.getLastI.2, p.1, p.2))
    else [])

/-- The `for i in range(self.rings)` loop of `Cone.faces`, accumulating
the `faces.extend(...)` calls of each iteration in order. -/
def facesAux (ptsIdx : List (ℤ × ℕ)) (rings : ℕ) : List (ℕ × ℕ × ℕ) :=
  (List.range rings).flatMap (faceStep ptsIdx rings)

/-- `Cone.faces`. -/
noncomputable def ConeData.faces (c : ConeData) : List (ℕ × ℕ × ℕ) :=
  facesAux c.indices c.rings

/-- The invariants `Cone.__post_init__` establishes (claims C1–C6, C9
quantify over "valid descriptors", i.e. over exactly these). -/
def ConeData.Valid (c : ConeData) : Prop :=
  0 < c.length ∧ 3 ≤ c.sides ∧ 1 ≤ c.rings ∧ 0 < c.dipDeg ∧ c.dipDeg < 90

instance (c : ConeData) : Decidable c.Valid := by
  unfold ConeData.Valid
  infer_instance

/-- The 1-based vertex indices of ring `i ≥ 1` (ring `i` occupies the
`sides` consecutive positions after the single tip vertex and the
`(i-1)` earlier rings). -/
def ringIdxList (s i : ℕ) : List ℕ :=
  (List.range s).map (fun k => 2 + (i - 1) * s + k)

/-- The closed form of `Cone.indices` for a valid descriptor: the tip
vertex `(ring 0, index 1)`, then ring `i+1` at indices `2 + i*s + j`,
then the surface vertex `(ring -1, index r*s + 2)`. -/
def idxList (s r : ℕ) : List (ℤ × ℕ) :=
  ((0 : ℤ), 1) :: ((List.range r).flatMap (fun i =>
    (List.range s).map (fun j => ((i : ℤ) + 1, 2 + i * s + j)))) ++ [(-1, r * s + 2)]

/-- Closed form of the tip fan: `(1, N1[k], N1_shift[k])`. -/
def tipFan (s : ℕ) : List (ℕ × ℕ × ℕ) :=
  ((ringIdxList s 1).zip (shift (ringIdxList s 1) 1)).map (fun p => (1, p.1, p.2))

/-- Closed form of the body strip between ring `i` and ring `i+1`
(`i ≥ 1`): first all `(A[k], A'[k], B[k])`, then all
`(A'[k], B[k], B'[k])`. -/
def bodyBlock (s i : ℕ) : List (ℕ × ℕ × ℕ) :=
  ((ringIdxList s i).zip ((shift (ringIdxList s i) 1).zip (ringIdxList s (i + 1)))).map
    (fun p => (p.1, p.2.1, p.2.2)) ++
  ((shift (ringIdxList s i) 1).zip
      ((ringIdxList s (i + 1)).zip (shift (ringIdxList s (i + 1)) 1))).map
    (fun p => (p.1, p.2.1, p.2.2))

/-- Closed form of the apex fan: `(apex, B[k], B'[k])` with the apex at
the last index `r*s + 2` and `B` the outermost ring `r`. -/
def apexFan (s r : ℕ) : List (ℕ × ℕ × ℕ) :=
  ((ringIdxList s r).zip (shift (ringIdxList s r) 1)).map (fun p => (r * s + 2, p.1, p.2))

/-- Closed form of the whole face list as the code produces it: tip fan,
body strips for rings `1..r-1`, and — only when `r ≥ 2` — the apex fan. -/
def facesModel (s r : ℕ) : List (ℕ × ℕ × ℕ) :=
  tipFan s ++ (List.range (r - 1)).flatMap (fun i => bodyBlock s (i + 1)) ++
  (if 2 ≤ r then apexFan s r else [])

/-- Modelled from the spec (§4.3, "Polar point derivation"), for the
refinement claim C5: ring `i = 0` emits only the `j = 0` point, every
other ring emits one point per side `j`, with the spec's `radius`,
`angle` and `height` formulas, and the single surface point tagged
`-1` is appended last. -/
noncomputable def specPointsPolar (c : ConeData) : List (ℤ × ℝ × ℝ × ℝ) :=
  ((List.range (c.rings + 1)).flatMap (fun i =>
    if i = 0 then [((0 : ℤ), c.radius 0, c.angle 0, c.height 0)]
    else (List.range c.sides).map (fun j => ((i : ℤ), c.radius i, c.angle j, c.height i)))) ++
  [(-1, 0, 0, 0)]

/-- A minimal valid descriptor with `rings = 1` (e.g. from
`Cone(Point(0,0,0), 1, 3, 1, 45)`; no clamping occurs). -/
def cone31 : ConeData := ⟨⟨0, 0, 0⟩, 1, 3, 1, 45⟩

/-- The spec's §8 scenario descriptor: `Point(0,0,0)`, `length=100`,
`sides=4`, `rings=2`, `dip=60`. -/
def cone42 : ConeData := ⟨⟨0, 0, 0⟩, 100, 4, 2, 60⟩

/-! ## Generic list helpers -/

theorem enumFrom_map_range {α : Type} (g : ℕ → α) (n : ℕ) (s : ℕ) :
    List.enumFrom n ((List.range s).map g) = (List.range s).map (fun j => (n + j, g j)) := by
  induction s with
  | zero => simp
  | succ s ih =>
      rw [List.range_succ]
      simp only [List.map_append, List.enumFrom_append, ih, List.length_map,
        List.length_range, List.map_cons, List.map_nil, List.enumFrom_cons,
        List.enumFrom_nil]

theorem length_flatMap_range_map {α : Type} (g : ℕ → ℕ → α) (s r : ℕ) :
    ((List.range r).flatMap (fun i => (List.range s).map (g i))).length = r * s := by
  rw [List.length_flatMap]
  simp only [Function.comp_def, List.length_map, List.length_range]
  rw [List.map_const', List.sum_replicate, List.length_range, smul_eq_mul]

theorem enumFrom_flatMap_range {α : Type} (g : ℕ → ℕ → α) (s : ℕ) (r n : ℕ) :
    List.enumFrom n ((List.range r).flatMap (fun i => (List.range s).map (g i))) =
      (List.range r).flatMap (fun i =>
        (List.range s).map (fun j => (n + i * s + j, g i j))) := by
  induction r with
  | zero => simp
  | succ r ih =>
      rw [List.range_succ, List.flatMap_append, List.enumFrom_append, ih,
        length_flatMap_range_map, List.flatMap_cons, List.flatMap_nil,
        List.append_nil, enumFrom_map_range,
        List.flatMap_append, List.flatMap_cons, List.flatMap_nil, List.append_nil]

theorem flatMap_range_eq_single {α : Type} (f : ℕ → List α) (t : ℕ) :
    ∀ r : ℕ, t < r → (∀ i, i < r → i ≠ t → f i = []) →
      (List.range r).flatMap f = f t := by
  intro r
  induction r with
  | zero => omega
  | succ r ih =>
      intro ht h
      rw [List.range_succ, List.flatMap_append, List.flatMap_cons, List.flatMap_nil,
        List.append_nil]
      by_cases htr : t = r
      · subst htr
        have hnil : (List.range t).flatMap f = [] :=
          List.flatMap_eq_nil_iff.mpr (fun i hi => by
            rw [List.mem_range] at hi
            exact h i (by omega) (by omega))
        rw [hnil, List.nil_append]
      · rw [h r (by omega) (Ne.symm htr), List.append_nil]
        exact ih (by omega) (fun i hi hit => h i (by omega) hit)

theorem flatMap_range_append_if_last {α : Type} (f : ℕ → List α) (g : List α) (r : ℕ) :
    (List.range r).flatMap (fun i => f i ++ if i + 1 = r then g else []) =
      (List.range r).flatMap f ++ if 1 ≤ r then g else [] := by
  cases r with
  | zero => simp
  | succ t =>
      rw [List.range_succ, List.flatMap_append, List.flatMap_append,
        List.flatMap_cons, List.flatMap_nil, List.append_nil,
        List.flatMap_cons, List.flatMap_nil, List.append_nil]
      rw [List.flatMap_congr (g := f) (fun i hi => by
        rw [if_neg (by simp at hi; omega), List.append_nil])]
      simp [List.append_assoc]

/-! ## Characterization of `points_polar` -/

theorem specPointsPolar_cons (c : ConeData) :
    specPointsPolar c = ((0 : ℤ), c.radius 0, c.angle 0, c.height 0) ::
      ((List.range c.rings).flatMap (fun i =>
        (List.range c.sides).map (fun j =>
          ((i : ℤ) + 1, c.radius (i + 1), c.angle j, c.height (i + 1))))) ++
      [(-1, 0, 0, 0)] := by
  unfold specPointsPolar
  rw [List.range_succ_eq_map, List.flatMap_cons, List.flatMap_map]
  simp [Nat.succ_ne_zero, List.cons_append]

theorem pointsPolar_eq_spec (c : ConeData) (hs : 1 ≤ c.sides) :
    c.pointsPolar = specPointsPolar c := by
  unfold ConeData.pointsPolar specPointsPolar
  congr 1
  apply List.flatMap_congr
  intro i _
  cases i with
  | zero =>
      obtain ⟨s, hs'⟩ := Nat.exists_eq_succ_of_ne_zero (by omega : c.sides ≠ 0)
      rw [if_pos rfl, hs', List.range_succ_eq_map]
      simp [List.filterMap_cons, List.filterMap_map, Function.comp_def,
        List.filterMap_eq_nil_iff]
  | succ i =>
      rw [if_neg (by omega)]
      have : (fun j => if (i + 1 = 0 ∧ 0 < j) then none
          else some (((i + 1 : ℕ) : ℤ), c.radius (i + 1), c.angle j, c.height (i + 1))) =
          (some ∘ fun j => (((i + 1 : ℕ) : ℤ), c.radius (i + 1), c.angle j, c.height (i + 1))) := by
        funext j
        simp
      rw [this, List.filterMap_eq_map]

/-! ## Characterization of `indices` -/

theorem indices_eq (c : ConeData) (hs : 1 ≤ c.sides) :
    c.indices = idxList c.sides c.rings := by
  unfold ConeData.indices ConeData.pointsCartesian
  rw [List.enum_map, List.map_map, pointsPolar_eq_spec c hs, specPointsPolar_cons,
    List.cons_append, List.enum_cons, List.enumFrom_append, length_flatMap_range_map,
    enumFrom_flatMap_range]
  simp only [List.map_cons, List.map_append, List.map_flatMap, List.map_map,
    List.enumFrom_cons, List.enumFrom_nil, List.map_nil]
  unfold idxList
  rw [List.cons_append, List.cons.injEq]
  refine ⟨rfl, ?_⟩
  congr 1
  · apply List.flatMap_congr
    intro i _
    apply List.map_congr_left
    intro j _
    refine Prod.ext rfl ?_
    show 1 + i * c.sides + j + 1 = 2 + i * c.sides + j
    omega
  · exact congrArg (fun x => [x]) (Prod.ext rfl (by
      show 1 + c.rings * c.sides + 1 = c.rings * c.sides + 2
      omega))

theorem idxList_filter_zero (s r : ℕ) :
    (idxList s r).filter (fun pt => pt.1 = ((0 : ℕ) : ℤ)) = [((0 : ℤ), 1)] := by
  unfold idxList
  rw [List.cons_append, List.filter_cons]
  rw [if_pos (by simp)]
  rw [List.filter_append, List.filter_flatMap]
  rw [List.flatMap_eq_nil_iff.mpr (fun i _ => List.filter_eq_nil_iff.mpr (fun a ha => by
    simp only [List.mem_map, List.mem_range] at ha
    obtain ⟨j, _, rfl⟩ := ha
    simp
    omega))]
  rw [List.filter_cons]
  rw [if_neg (by simp)]
  rfl

theorem idxList_filter_succ (s r i : ℕ) (hi : i < r) :
    (idxList s r).filter (fun pt => pt.1 = (i : ℤ) + 1) =
      (List.range s).map (fun j => ((i : ℤ) + 1, 2 + i * s + j)) := by
  unfold idxList
  rw [List.cons_append, List.filter_cons]
  rw [if_neg (by simp; omega)]
  rw [List.filter_append, List.filter_flatMap]
  rw [flatMap_range_eq_single _ i r hi (fun i' _ hne => List.filter_eq_nil_iff.mpr
    (fun a ha => by
      simp only [List.mem_map, List.mem_range] at ha
      obtain ⟨j, _, rfl⟩ := ha
      simp
      omega))]
  rw [List.filter_eq_self.mpr (fun a ha => by
    simp only [List.mem_map, List.mem_range] at ha
    obtain ⟨j, _, rfl⟩ := ha
    simp)]
  rw [List.filter_cons]
  rw [if_neg (by simp; omega)]
  rw [List.filter_nil, List.append_nil]

theorem idxList_getLastI (s r : ℕ) :
    (idxList s r).getLastI = (-1, r * s + 2) := by
  unfold idxList
  rw [List.getLastI_eq_getLast?, List.getLast?_concat]

/-! ## Characterization of `faces` -/

theorem faceStep_zero (s r : ℕ) (hr : 1 ≤ r) :
    faceStep (idxList s r) r 0 = tipFan s := by
  simp only [faceStep, reduceIte]
  rw [idxList_filter_zero, idxList_filter_succ s r 0 (by omega)]
  simp only [List.map_map]
  rfl

theorem faceStep_succ (s r i' : ℕ) (hi2 : i' + 1 < r) :
    faceStep (idxList s r) r (i' + 1) =
      bodyBlock s (i' + 1) ++ (if i' + 1 = r - 1 then apexFan s r else []) := by
  have h1 := idxList_filter_succ s r i' (by omega)
  have h2 := idxList_filter_succ s r (i' + 1) (by omega)
  simp only [Nat.cast_add, Nat.cast_one] at h1 h2
  simp only [faceStep, Nat.cast_add, Nat.cast_one]
  rw [if_neg (by omega)]
  rw [h1, h2, idxList_getLastI]
  simp only [List.map_map]
  split_ifs with h
  · congr 1
    rw [h]
    rfl
  · rfl

theorem facesAux_idxList (s r : ℕ) (hr : 1 ≤ r) :
    facesAux (idxList s r) r = facesModel s r := by
  obtain ⟨t, rfl⟩ : ∃ t, r = t + 1 := ⟨r - 1, by omega⟩
  unfold facesAux
  rw [List.range_succ_eq_map, List.flatMap_cons, List.flatMap_map,
    faceStep_zero s (t + 1) (by omega)]
  have hcong : (List.range t).flatMap
        (fun i' => faceStep (idxList s (t + 1)) (t + 1) (Nat.succ i')) =
      (List.range t).flatMap
        (fun i' => bodyBlock s (i' + 1) ++ (if i' + 1 = t then apexFan s (t + 1) else [])) := by
    apply List.flatMap_congr
    intro i' hi'
    rw [List.mem_range] at hi'
    have := faceStep_succ s (t + 1) i' (by omega)
    simpa using this
  rw [hcong, flatMap_range_append_if_last]
  unfold facesModel
  simp only [Nat.add_sub_cancel]
  have hiff : (2 ≤ t + 1) ↔ (1 ≤ t) := by omega
  rw [if_congr hiff rfl rfl, List.append_assoc]

theorem faces_eq_model (c : ConeData) (h : c.Valid) :
    c.faces = facesModel c.sides c.rings := by
  obtain ⟨-, hs, hr, -, -⟩ := h
  unfold ConeData.faces
  rw [indices_eq c (by omega), facesAux_idxList c.sides c.rings hr]

/-! ## Lengths -/

theorem length_shift {α : Type} (l : List α) (n : ℕ) : (shift l n).length = l.length := by
  unfold shift
  rw [List.length_append, List.length_drop, List.length_take]
  rcases Nat.eq_zero_or_pos l.length with h | h
  · omega
  · have := Nat.mod_lt n h
    omega

theorem length_ringIdxList (s i : ℕ) : (ringIdxList s i).length = s := by
  simp [ringIdxList]

theorem length_tipFan (s : ℕ) : (tipFan s).length = s := by
  simp [tipFan, length_shift, length_ringIdxList]

theorem length_bodyBlock (s i : ℕ) : (bodyBlock s i).length = 2 * s := by
  simp [bodyBlock, length_shift, length_ringIdxList]
  omega

theorem length_apexFan (s r : ℕ) : (apexFan s r).length = s := by
  simp [apexFan, length_shift, length_ringIdxList]

theorem length_flatMap_const {α : Type} (f : ℕ → List α) (r k : ℕ)
    (h : ∀ i ∈ List.range r, (f i).length = k) :
    ((List.range r).flatMap f).length = r * k := by
  rw [List.length_flatMap, Function.comp_def]
  rw [List.map_congr_left (g := fun _ => k) (fun a ha => h a ha)]
  rw [List.map_const', List.sum_replicate, List.length_range, smul_eq_mul]

theorem length_facesModel (s r : ℕ) :
    (facesModel s r).length = s + (r - 1) * (2 * s) + (if 2 ≤ r then s else 0) := by
  unfold facesModel
  rw [List.length_append, List.length_append, length_tipFan,
    length_flatMap_const (fun i => bodyBlock s (i + 1)) (r - 1) (2 * s)
      (fun i _ => length_bodyBlock s (i + 1)),
    apply_ite List.length, length_apexFan, List.length_nil]

theorem faces_length_of_two_le (c : ConeData) (h : c.Valid) (hr2 : 2 ≤ c.rings) :
    c.faces.length = 2 * c.sides * c.rings := by
  rw [faces_eq_model c h, length_facesModel, if_pos hr2]
  obtain ⟨t, ht⟩ : ∃ t, c.rings = t + 2 := ⟨c.rings - 2, by omega⟩
  rw [ht, show t + 2 - 1 = t + 1 from by omega]
  ring

theorem pointsPolar_length (c : ConeData) (hs : 1 ≤ c.sides) :
    c.pointsPolar.length = c.rings * c.sides + 2 := by
  rw [pointsPolar_eq_spec c hs, specPointsPolar_cons]
  rw [List.length_append, List.length_cons, length_flatMap_range_map,
    List.length_singleton]

theorem pointsCartesian_length (c : ConeData) (hs : 1 ≤ c.sides) :
    c.pointsCartesian.length = c.rings * c.sides + 2 := by
  unfold ConeData.pointsCartesian
  rw [List.length_map, pointsPolar_length c hs]

theorem indices_length (c : ConeData) (hs : 1 ≤ c.sides) :
    c.indices.length = c.rings * c.sides + 2 := by
  unfold ConeData.indices
  rw [List.length_map, List.enum_length, pointsCartesian_length c hs]

/-! ## Dip-angle bounds and validation inversion -/

theorem dip_pos_lt (c : ConeData) (h0 : 0 < c.dipDeg) (h90 : c.dipDeg < 90) :
    0 < c.dip ∧ c.dip < Real.pi / 2 := by
  have hπ := Real.pi_pos
  have h0' : (0 : ℝ) < (c.dipDeg : ℝ) := by exact_mod_cast h0
  have h90' : (c.dipDeg : ℝ) < 90 := by exact_mod_cast h90
  unfold ConeData.dip
  constructor
  · exact div_pos (mul_pos h0' hπ) (by norm_num)
  · rw [div_lt_iff₀ (by norm_num : (0 : ℝ) < 180)]
    nlinarith [hπ, h90']

theorem cos_dip_pos (c : ConeData) (h0 : 0 < c.dipDeg) (h90 : c.dipDeg < 90) :
    0 < Real.cos c.dip := by
  obtain ⟨h1, h2⟩ := dip_pos_lt c h0 h90
  exact Real.cos_pos_of_mem_Ioo ⟨by linarith, h2⟩

theorem sin_dip_pos (c : ConeData) (h0 : 0 < c.dipDeg) (h90 : c.dipDeg < 90) :
    0 < Real.sin c.dip := by
  obtain ⟨h1, h2⟩ := dip_pos_lt c h0 h90
  exact Real.sin_pos_of_pos_of_lt_pi h1 (by linarith [Real.pi_pos])

theorem mkCone_ok_valid (p : PyVal) (l : ℚ) (s r : PyVal) (d : ℚ)
    (c : ConeData) (ns : List String) (h : mkCone p l s r d = .ok (c, ns)) :
    c.Valid ∧ c.dipDeg = d := by
  simp only [mkCone, ConeData.SIDES_MIN, ConeData.RINGS_MIN,
    ConeData.DIP_MIN, ConeData.DIP_MAX] at h
  split_ifs at h with h1 h2 h3 h4 h5 h6 <;>
    try exact Except.noConfusion h
  all_goals (
    rw [Except.ok.injEq, Prod.mk.injEq] at h
    obtain ⟨hc, -⟩ := h
    subst hc
    rcases not_or.mp h4 with ⟨hd1, hd2⟩
    exact ⟨⟨h2, by dsimp only; omega, by dsimp only; omega,
      not_le.mp hd1, not_le.mp hd2⟩, rfl⟩)

theorem radicand_bounds (c : ConeData) (h : c.Valid) (i : ℕ) (hi : i ≤ c.rings) :
    (c.length : ℝ) ^ 2 * Real.sin c.dip ^ 2 ≤
      (c.length : ℝ) ^ 2 - ((i : ℝ) * (c.length : ℝ) * Real.cos c.dip / (c.rings : ℝ)) ^ 2 ∧
    0 < (c.length : ℝ) ^ 2 * Real.sin c.dip ^ 2 := by
  obtain ⟨hl, -, hr, h0, h90⟩ := h
  have hl' : (0 : ℝ) < (c.length : ℝ) := by exact_mod_cast hl
  have hr' : (1 : ℝ) ≤ (c.rings : ℝ) := by exact_mod_cast hr
  have hi' : (i : ℝ) ≤ (c.rings : ℝ) := by exact_mod_cast hi
  have hi0 : (0 : ℝ) ≤ (i : ℝ) := Nat.cast_nonneg i
  have hcos := cos_dip_pos c h0 h90
  have hsin := sin_dip_pos c h0 h90
  have hrpos : (0 : ℝ) < (c.rings : ℝ) := by linarith
  have hrad0 : (0 : ℝ) ≤ (i : ℝ) * (c.length : ℝ) * Real.cos c.dip / (c.rings : ℝ) :=
    div_nonneg (mul_nonneg (mul_nonneg hi0 hl'.le) hcos.le) hrpos.le
  have hradle : (i : ℝ) * (c.length : ℝ) * Real.cos c.dip / (c.rings : ℝ) ≤
      (c.length : ℝ) * Real.cos c.dip := by
    rw [div_le_iff₀ hrpos]
    nlinarith [mul_nonneg (mul_nonneg (sub_nonneg.mpr hi') hl'.le) hcos.le]
  have hsq : ((i : ℝ) * (c.length : ℝ) * Real.cos c.dip / (c.rings : ℝ)) ^ 2 ≤
      ((c.length : ℝ) * Real.cos c.dip) ^ 2 := pow_le_pow_left₀ hrad0 hradle 2
  have hs2 : Real.sin c.dip ^ 2 = 1 - Real.cos c.dip ^ 2 := by
    have := Real.sin_sq_add_cos_sq c.dip
    linarith
  constructor
  · have hkey : (c.length : ℝ) ^ 2 * Real.sin c.dip ^ 2 =
        (c.length : ℝ) ^ 2 - ((c.length : ℝ) * Real.cos c.dip) ^ 2 := by
      rw [hs2]
      ring
    rw [hkey]
    linarith [hsq]
  · exact mul_pos (pow_pos hl' 2) (pow_pos hsin 2)

/-! ## Bounds on the indices appearing in faces -/

theorem mem_shift {α : Type} {l : List α} {n : ℕ} {x : α} (hx : x ∈ shift l n) : x ∈ l := by
  unfold shift at hx
  rcases List.mem_append.mp hx with h | h
  · exact List.mem_of_mem_drop h
  · exact List.mem_of_mem_take h

theorem mem_ringIdxList {s i x : ℕ} (hi : 1 ≤ i) (hx : x ∈ ringIdxList s i) :
    2 ≤ x ∧ x ≤ 1 + i * s := by
  unfold ringIdxList at hx
  simp only [List.mem_map, List.mem_range] at hx
  obtain ⟨k, hk, rfl⟩ := hx
  obtain ⟨i', rfl⟩ : ∃ i', i = i' + 1 := ⟨i - 1, by omega⟩
  rw [Nat.add_sub_cancel, Nat.succ_mul]
  omega

theorem facesModel_mem_bounds {s r : ℕ} (_hs : 1 ≤ s) (hr : 1 ≤ r) {f : ℕ × ℕ × ℕ}
    (hf : f ∈ facesModel s r) :
    (1 ≤ f.1 ∧ f.1 ≤ r * s + 2) ∧ (1 ≤ f.2.1 ∧ f.2.1 ≤ r * s + 2) ∧
      (1 ≤ f.2.2 ∧ f.2.2 ≤ r * s + 2) := by
  have hss : s ≤ r * s := Nat.le_mul_of_pos_left s hr
  unfold facesModel at hf
  rcases List.mem_append.mp hf with hf | hf
  · rcases List.mem_append.mp hf with hf | hf
    · unfold tipFan at hf
      simp only [List.mem_map] at hf
      obtain ⟨p, hp, rfl⟩ := hf
      rcases p with ⟨a, b⟩
      obtain ⟨ha, hb⟩ := List.of_mem_zip hp
      have h1 := mem_ringIdxList (le_refl 1) ha
      have h2 := mem_ringIdxList (le_refl 1) (mem_shift hb)
      rw [one_mul] at h1 h2
      refine ⟨⟨?_, ?_⟩, ⟨?_, ?_⟩, ?_, ?_⟩ <;> (dsimp only; omega)
    · simp only [List.mem_flatMap, List.mem_range] at hf
      obtain ⟨i, hi, hf⟩ := hf
      have hm1 : (i + 1) * s ≤ r * s := Nat.mul_le_mul_right s (by omega)
      have hm2 : (i + 2) * s ≤ r * s := Nat.mul_le_mul_right s (by omega)
      unfold bodyBlock at hf
      rcases List.mem_append.mp hf with hf | hf
      · simp only [List.mem_map] at hf
        obtain ⟨p, hp, rfl⟩ := hf
        rcases p with ⟨a, b, e⟩
        obtain ⟨ha, hbe⟩ := List.of_mem_zip hp
        obtain ⟨hb, he⟩ := List.of_mem_zip hbe
        have h1 := mem_ringIdxList (by omega : 1 ≤ i + 1) ha
        have h2 := mem_ringIdxList (by omega : 1 ≤ i + 1) (mem_shift hb)
        have h3 := mem_ringIdxList (by omega : 1 ≤ i + 2) he
        refine ⟨⟨?_, ?_⟩, ⟨?_, ?_⟩, ?_, ?_⟩ <;> (dsimp only; omega)
      · simp only [List.mem_map] at hf
        obtain ⟨p, hp, rfl⟩ := hf
        rcases p with ⟨a, b, e⟩
        obtain ⟨ha, hbe⟩ := List.of_mem_zip hp
        obtain ⟨hb, he⟩ := List.of_mem_zip hbe
        have h1 := mem_ringIdxList (by omega : 1 ≤ i + 1) (mem_shift ha)
        have h2 := mem_ringIdxList (by omega : 1 ≤ i + 2) hb
        have h3 := mem_ringIdxList (by omega : 1 ≤ i + 2) (mem_shift he)
        refine ⟨⟨?_, ?_⟩, ⟨?_, ?_⟩, ?_, ?_⟩ <;> (dsimp only; omega)
  · by_cases h2r : 2 ≤ r
    · rw [if_pos h2r] at hf
      unfold apexFan at hf
      simp only [List.mem_map] at hf
      obtain ⟨p, hp, rfl⟩ := hf
      rcases p with ⟨a, b⟩
      obtain ⟨ha, hb⟩ := List.of_mem_zip hp
      have h1 := mem_ringIdxList hr ha
      have h2 := mem_ringIdxList hr (mem_shift hb)
      refine ⟨⟨?_, ?_⟩, ⟨?_, ?_⟩, ?_, ?_⟩ <;> (dsimp only; omega)
    · rw [if_neg h2r] at hf
      exact absurd hf (List.not_mem_nil f)

/-! ## Claim theorems -/

/-- C1: the claimed closed form `len(faces) = 2*sides*rings` fails on
the code for the valid descriptor `sides = 3`, `rings = 1` (no clamping
occurs, dip 45°): the apex-fan emission is nested inside the `elif
i > 0` branch of the loop, so with `rings = 1` only the `sides = 3`
tip-fan triangles are produced and `len(faces) = 3 ≠ 2*3*1 = 6`. -/
theorem c1_faces_count_fails_at_rings_one :
    cone31.Valid ∧ (ConeData.faces cone31).length = 3 ∧
      ¬ (ConeData.faces cone31).length = 2 * 3 * 1 :=
  ⟨by decide, rfl, by decide⟩

/-- C2: at the valid descriptor `sides = 3`, `rings = 1` the face list
is exactly the tip fan; the apex vertex (ring `-1`, last and highest
index `5 = rings*sides + 2`) is referenced by no face, so the claimed
apex fan `(apex, B[k], B'[k])` of the last ring transition is absent
for `rings = 1`. -/
theorem c2_apex_fan_missing_at_rings_one :
    cone31.Valid ∧
    ConeData.faces cone31 = [(1, 2, 3), (1, 3, 4), (1, 4, 2)] ∧
    (ConeData.indices cone31).getLastI = (-1, 5) ∧
    ∀ f ∈ ConeData.faces cone31, f.1 ≠ 5 ∧ f.2.1 ≠ 5 ∧ f.2.2 ≠ 5 :=
  ⟨by decide, rfl, rfl, by decide⟩

/-- C3: for every valid descriptor the face list is the tip fan
`(t, N1[k], N1_shift[k])` (with `t = 1` the single ring-0 index and
`N1 = ringIdxList sides 1` the ordered ring-1 indices), followed in
order by, for each body transition `i = 1 .. rings-1`, the block of the
triangles `(A[k], A'[k], B[k])` then `(A'[k], B[k], B'[k])` (`A`/`B`
the ordered index lists of rings `i`/`i+1`, `A'`/`B'` their left
rotations by one), followed by the apex fan when `rings ≥ 2`. -/
theorem c3_faces_structure (c : ConeData) (h : c.Valid) :
    c.faces = tipFan c.sides ++
      (List.range (c.rings - 1)).flatMap (fun i => bodyBlock c.sides (i + 1)) ++
      (if 2 ≤ c.rings then apexFan c.sides c.rings else []) := by
  rw [faces_eq_model c h]
  rfl

theorem c3_faces_structure_witness :
    cone42.Valid ∧ cone42.faces = tipFan 4 ++
      (List.range 1).flatMap (fun i => bodyBlock 4 (i + 1)) ++
      (if 2 ≤ 2 then apexFan 4 2 else []) :=
  ⟨by decide, c3_faces_structure cone42 (by decide)⟩

/-- C4: for every valid descriptor, `points_cartesian` (and hence
`points_polar` and `indices`) has length `rings*sides + 2`: one ring-0
point, `sides` points for each of rings `1..rings`, one apex point. -/
theorem c4_points_count (c : ConeData) (h : c.Valid) :
    c.pointsCartesian.length = c.rings * c.sides + 2 ∧
    c.pointsPolar.length = c.rings * c.sides + 2 ∧
    c.indices.length = c.rings * c.sides + 2 := by
  have hs : 1 ≤ c.sides := by
    obtain ⟨-, h3, -, -, -⟩ := h
    omega
  exact ⟨pointsCartesian_length c hs, pointsPolar_length c hs, indices_length c hs⟩

theorem c4_points_count_witness :
    cone42.Valid ∧ cone42.pointsCartesian.length = 2 * 4 + 2 ∧
    cone42.pointsPolar.length = 2 * 4 + 2 ∧ cone42.indices.length = 2 * 4 + 2 :=
  ⟨by decide, c4_points_count cone42 (by decide)⟩

/-- C5: for every valid descriptor, `points_polar` is exactly the
spec-described list (`specPointsPolar`, modelled from the spec's words):
ring `i` emits points of radius `i*length*cos(dip)/rings`, height
`-sqrt(length² - radius²)` and angles `j*2π/sides`, ring 0 emits only
the `j = 0` point, and the single ring `-1` point `(0, 0, 0)` is the
final element of the list. -/
theorem c5_points_polar_matches_spec (c : ConeData) (h : c.Valid) :
    c.pointsPolar = specPointsPolar c ∧
    c.pointsPolar.getLast? = some (-1, 0, 0, 0) := by
  have hs : 1 ≤ c.sides := by
    obtain ⟨-, h3, -, -, -⟩ := h
    omega
  have he := pointsPolar_eq_spec c hs
  refine ⟨he, ?_⟩
  rw [he, specPointsPolar_cons, List.getLast?_concat]

theorem c5_points_polar_matches_spec_witness :
    cone42.Valid ∧ (cone42.pointsPolar = specPointsPolar cone42 ∧
      cone42.pointsPolar.getLast? = some (-1, 0, 0, 0)) :=
  ⟨by decide, c5_points_polar_matches_spec cone42 (by decide)⟩

/-- C6: for every valid descriptor, every vertex index appearing in any
face triple is between 1 and `len(points_cartesian)` inclusive. -/
theorem c6_face_indices_in_range (c : ConeData) (h : c.Valid) :
    ∀ f ∈ c.faces,
      (1 ≤ f.1 ∧ f.1 ≤ c.pointsCartesian.length) ∧
      (1 ≤ f.2.1 ∧ f.2.1 ≤ c.pointsCartesian.length) ∧
      (1 ≤ f.2.2 ∧ f.2.2 ≤ c.pointsCartesian.length) := by
  have hs : 1 ≤ c.sides := by
    obtain ⟨-, h3, -, -, -⟩ := h
    omega
  have hr : 1 ≤ c.rings := h.2.2.1
  intro f hf
  rw [faces_eq_model c h] at hf
  rw [pointsCartesian_length c hs]
  exact facesModel_mem_bounds hs hr hf

theorem c6_face_indices_in_range_witness :
    cone42.Valid ∧ ∀ f ∈ cone42.faces,
      (1 ≤ f.1 ∧ f.1 ≤ cone42.pointsCartesian.length) ∧
      (1 ≤ f.2.1 ∧ f.2.1 ≤ cone42.pointsCartesian.length) ∧
      (1 ≤ f.2.2 ∧ f.2.2 ≤ cone42.pointsCartesian.length) :=
  ⟨by decide, c6_face_indices_in_range cone42 (by decide)⟩

/-- C7: construction of a `Cone` raises `ValueError` if and only if the
point is not a `Point` instance, or `length ≤ 0`, or `sides`/`rings` is
not an `int`, or the dip lies outside the open interval (0, 90); in
particular `sides = 2` is clamped to 3 with a notice, `rings = 0` is
clamped to 1 with a notice, dips 0 and 90 are rejected and dip 45 is
accepted; and `Point` raises `ValueError` iff a coordinate is
non-numeric. -/
theorem c7_validation_error_iff :
    (∀ (p : PyVal) (l : ℚ) (s r : PyVal) (d : ℚ),
      (∃ e, mkCone p l s r d = .error e) ↔
        ¬ (p.isinstancePoint = true ∧ 0 < l ∧ s.isinstanceInt = true ∧
            r.isinstanceInt = true ∧ 0 < d ∧ d < 90)) ∧
    mkCone (.vpoint ⟨0, 0, 0⟩) 1 (.vint 2) (.vint 5) 45 =
      .ok (⟨⟨0, 0, 0⟩, 1, 3, 5, 45⟩, ["Number of sides set to 3"]) ∧
    mkCone (.vpoint ⟨0, 0, 0⟩) 1 (.vint 4) (.vint 0) 45 =
      .ok (⟨⟨0, 0, 0⟩, 1, 4, 1, 45⟩, ["Number of rings set to 1"]) ∧
    mkCone (.vpoint ⟨0, 0, 0⟩) 1 (.vint 4) (.vint 2) 0 =
      .error "dip must be larger than (0 and smaller than 90]" ∧
    mkCone (.vpoint ⟨0, 0, 0⟩) 1 (.vint 4) (.vint 2) 90 =
      .error "dip must be larger than (0 and smaller than 90]" ∧
    mkCone (.vpoint ⟨0, 0, 0⟩) 1 (.vint 4) (.vint 2) 45 =
      .ok (⟨⟨0, 0, 0⟩, 1, 4, 2, 45⟩, []) ∧
    (∀ x y z : PyVal, (∃ e, mkPoint x y z = .error e) ↔
      ¬ (x.isNumber = true ∧ y.isNumber = true ∧ z.isNumber = true)) := by
  refine ⟨?_, rfl, rfl, rfl, rfl, rfl, ?_⟩
  · intro p l s r d
    constructor
    · rintro ⟨e, he⟩ ⟨hp, hl, hs, hr, hd0, hd90⟩
      have h1 : ¬ d ≤ 0 := not_le.mpr hd0
      have h2 : ¬ 90 ≤ d := not_le.mpr hd90
      simp [mkCone, ConeData.DIP_MIN, ConeData.DIP_MAX, hp, hl, hs, hr, h1, h2] at he
    · intro hcond
      by_cases hp : p.isinstancePoint = true
      · by_cases hl : 0 < l
        · by_cases hsr : s.isinstanceInt = true ∧ r.isinstanceInt = true
          · by_cases hd : d ≤ ConeData.DIP_MIN ∨ d ≥ ConeData.DIP_MAX
            · refine ⟨"dip must be larger than (0 and smaller than 90]", ?_⟩
              simp only [mkCone]
              rw [if_neg (not_not_intro hp), if_neg (not_not_intro hl),
                if_neg (not_not_intro hsr), if_pos hd]
            · exfalso
              apply hcond
              rcases not_or.mp hd with ⟨hd1, hd2⟩
              simp only [ConeData.DIP_MIN, ConeData.DIP_MAX] at hd1 hd2
              exact ⟨hp, hl, hsr.1, hsr.2, not_le.mp hd1, not_le.mp hd2⟩
          · refine ⟨"sides and rings must be an integers", ?_⟩
            simp only [mkCone]
            rw [if_neg (not_not_intro hp), if_neg (not_not_intro hl), if_pos hsr]
        · refine ⟨"length must be a positive float", ?_⟩
          simp only [mkCone]
          rw [if_neg (not_not_intro hp), if_pos hl]
      · refine ⟨"point must be an instance of Point", ?_⟩
        simp only [mkCone]
        rw [if_pos hp]
  · intro x y z
    constructor
    · rintro ⟨e, he⟩ ⟨hx, hy, hz⟩
      simp only [PyVal.isNumber] at hx hy hz
      simp [mkPoint, hx, hy, hz] at he
    · intro hcond
      refine ⟨"x, y, z must be numbers (int, float)", ?_⟩
      unfold mkPoint
      rw [if_neg (fun hc => by
        simp only [Bool.and_eq_true] at hc
        exact hcond ⟨hc.1.1, hc.1.2, hc.2⟩)]

/-- C8: every successfully constructed cone satisfies, from construction
on, `length > 0`, `sides ≥ 3`, `rings ≥ 1`, `0 < dipDeg < 90`
(`ConeData.Valid`), and its stored dip (the value after
`self.dip = math.radians(self.dip)`) equals `dip_degrees * π / 180`, so
`0 < dip < π/2`; the derivations read the fields of the returned
immutable record without modification. -/
theorem c8_constructed_invariants (p : PyVal) (l : ℚ) (s r : PyVal) (d : ℚ)
    (c : ConeData) (ns : List String) (h : mkCone p l s r d = .ok (c, ns)) :
    c.Valid ∧ c.dip = (d : ℝ) * Real.pi / 180 ∧
      0 < c.dip ∧ c.dip < Real.pi / 2 := by
  obtain ⟨hv, hd⟩ := mkCone_ok_valid p l s r d c ns h
  obtain ⟨h1, h2⟩ := dip_pos_lt c hv.2.2.2.1 hv.2.2.2.2
  refine ⟨hv, ?_, h1, h2⟩
  unfold ConeData.dip
  rw [hd]

theorem c8_constructed_invariants_witness :
    mkCone (.vpoint ⟨0, 0, 0⟩) 100 (.vint 4) (.vint 2) 60 = .ok (cone42, []) ∧
    (cone42.Valid ∧ cone42.dip = ((60 : ℚ) : ℝ) * Real.pi / 180 ∧
      0 < cone42.dip ∧ cone42.dip < Real.pi / 2) :=
  ⟨rfl, c8_constructed_invariants (.vpoint ⟨0, 0, 0⟩) 100 (.vint 4) (.vint 2) 60
    cone42 [] rfl⟩

/-- C9: for every valid descriptor and ring `i ≤ rings`, the square-root
argument `length² - (i*length*cos(dip)/rings)²` of the height
computation is, in exact real arithmetic, at least
`length² * sin(dip)² > 0`; consequently the height is a well-defined
strictly negative real (no domain fault, no NaN). -/
theorem c9_radicand_positive (c : ConeData) (h : c.Valid) (i : ℕ) (hi : i ≤ c.rings) :
    ((c.length : ℝ) ^ 2 * Real.sin c.dip ^ 2 ≤
      (c.length : ℝ) ^ 2 - ((i : ℝ) * (c.length : ℝ) * Real.cos c.dip / (c.rings : ℝ)) ^ 2 ∧
    0 < (c.length : ℝ) ^ 2 * Real.sin c.dip ^ 2) ∧
    c.height i < 0 := by
  obtain ⟨hb, hpos⟩ := radicand_bounds c h i hi
  refine ⟨⟨hb, hpos⟩, ?_⟩
  unfold ConeData.height
  have hrad : 0 < (c.length : ℝ) ^ 2 -
      ((i : ℝ) * (c.length : ℝ) * Real.cos c.dip / (c.rings : ℝ)) ^ 2 := by
    linarith
  have := Real.sqrt_pos.mpr hrad
  linarith

theorem c9_radicand_positive_witness :
    cone42.Valid ∧ 2 ≤ cone42.rings ∧
    (((cone42.length : ℝ) ^ 2 * Real.sin cone42.dip ^ 2 ≤
      (cone42.length : ℝ) ^ 2 -
        ((2 : ℕ) * (cone42.length : ℝ) * Real.cos cone42.dip / (cone42.rings : ℝ)) ^ 2 ∧
    0 < (cone42.length : ℝ) ^ 2 * Real.sin cone42.dip ^ 2) ∧
    cone42.height 2 < 0) :=
  ⟨by decide, by decide, c9_radicand_positive cone42 (by decide) 2 (by decide)⟩

/-- C10: booleans pass the numeric/integer validation because Python's
`bool` is a subclass of `int`: `Point(True, False, 0)` constructs with
coordinates 1, 0, 0, and `sides = True` is accepted as an integer, read
as 1, and clamped to 3 with a notice. -/
theorem c10_bool_passes_validation :
    mkPoint (.vbool true) (.vbool false) (.vint 0) = .ok ⟨1, 0, 0⟩ ∧
    mkCone (.vpoint ⟨0, 0, 0⟩) 100 (.vbool true) (.vint 2) 45 =
      .ok (⟨⟨0, 0, 0⟩, 100, 3, 2, 45⟩, ["Number of sides set to 3"]) :=
  ⟨rfl, rfl⟩
